import Mathlib

/-!
Verification of the Jira MCP server (`src/index.ts`).

The development shallowly embeds the two in-scope pieces of the program:

* `convertToADF` (src/index.ts lines 166-273): the plain-text to
  Atlassian-Document-Format converter, embedded as a pure function over the
  list of input lines;
* the tool dispatcher `setupToolHandlers` (src/index.ts lines 633-995) with
  its per-tool validators, embedded as a function from a tool name and a raw
  argument bag to the list of Jira-client calls it performs plus the response
  envelope (the external Jira client is modelled by an environment supplying
  the responses the code branches on).

JavaScript string builtins (`trim`, `startsWith`, `endsWith`, `split`,
`substring`, `toLowerCase`, the regex `/^\d+\.\s/`) are modelled by
executable functions over the character list of a string; the whitespace
class is modelled as the ASCII whitespace characters.
-/

/-- Model of the whitespace class used by JavaScript `trim` and `\s`
(restricted to the ASCII whitespace characters that can occur here). -/
def jsWhitespace (c : Char) : Bool :=
  c = ' ' || c = '\t' || c = '\n' || c = '\r'

/-- Model of JavaScript `String.prototype.trim`. -/
def jsTrim (s : String) : String :=
  ⟨((s.data.dropWhile jsWhitespace).reverse.dropWhile jsWhitespace).reverse⟩

/-- Character-list test: `p` starts the list `l`. -/
def chStarts : List Char → List Char → Bool
  | _, [] => true
  | [], _ :: _ => false
  | c :: cs, d :: ds => c = d && chStarts cs ds

/-- Model of JavaScript `String.prototype.startsWith`. -/
def jsStartsWith (s p : String) : Bool :=
  chStarts s.data p.data

/-- Model of JavaScript `String.prototype.endsWith`. -/
def jsEndsWith (s p : String) : Bool :=
  chStarts s.data.reverse p.data.reverse

/-- Model of JavaScript `String.prototype.substring(n)` (drop `n` chars). -/
def jsDrop (s : String) (n : Nat) : String :=
  ⟨s.data.drop n⟩

/-- Model of JavaScript `String.prototype.toLowerCase` (ASCII letters). -/
def jsToLower (s : String) : String :=
  ⟨s.data.map Char.toLower⟩

/-- Auxiliary for `jsSplitLines`: accumulates the current line reversed. -/
def splitLinesAux : List Char → List Char → List String
  | [], acc => [⟨acc.reverse⟩]
  | '\n' :: cs, acc => ⟨acc.reverse⟩ :: splitLinesAux cs []
  | c :: cs, acc => splitLinesAux cs (c :: acc)

/-- Model of JavaScript `text.split("\n")` (src/index.ts line 167). -/
def jsSplitLines (s : String) : List String :=
  splitLinesAux s.data []

/-- Model of the regex step of src/index.ts lines 212-213: test
`/^\d+\.\s/` on a string and, on success, return the remainder after
removing the matched prefix (one or more digits, a period, one whitespace
character), exactly as `replace(/^\d+\.\s/, "")` produces it. -/
def orderedSplit (s : String) : Option String :=
  let ds := s.data.takeWhile Char.isDigit
  let rest := s.data.dropWhile Char.isDigit
  if ds.isEmpty then none
  else
    match rest with
    | '.' :: c :: tail => if jsWhitespace c then some ⟨tail⟩ else none
    | _ => none

/-- ADF nodes as built by `convertToADF`: a tagged type plus a `content`
list of child nodes, mirroring the JavaScript object shapes. -/
inductive ADFNode where
  | text (s : String)
  | paragraph (content : List ADFNode)
  | heading (level : Nat) (content : List ADFNode)
  | listItem (content : List ADFNode)
  | bulletList (content : List ADFNode)
  | orderedList (content : List ADFNode)
deriving Repr

/-- The two list kinds tracked by `currentListType` (src/index.ts line 170). -/
inductive ListKind where
  | bullet
  | ordered
deriving Repr, DecidableEq

/-- The list-item node pushed for one item text (src/index.ts lines 194-207
and 222-235): `listItem [paragraph [text s]]`. -/
def mkItem (s : String) : ADFNode :=
  .listItem [.paragraph [.text s]]

/-- A list node of the given kind with the given children. -/
def mkList : ListKind → List ADFNode → ADFNode
  | .bullet, c => .bulletList c
  | .ordered, c => .orderedList c

/-- Model of `currentList.content.push(item)`: append a child to a list
node's content. -/
def pushItem (item : ADFNode) : ADFNode → ADFNode
  | .bulletList c => .bulletList (c ++ [item])
  | .orderedList c => .orderedList (c ++ [item])
  | n => n

/-- Replace the element at index `i` by `f` of it (model of mutating the
array element aliased by `currentList`). -/
def modifyIdx : List ADFNode → Nat → (ADFNode → ADFNode) → List ADFNode
  | [], _, _ => []
  | x :: xs, 0, f => f x :: xs
  | x :: xs, n + 1, f => x :: modifyIdx xs n f

/-- The loop of `convertToADF` (src/index.ts lines 172-266), one step per
input line.  The state is the document content built so far together with
`currentList`/`currentListType`, modelled as the index of the open list
node in `content` paired with its kind (`none` when no list is open).
`nextLine` is `lines[i + 1] || ""`. -/
def convertLoop : List String → Option (ListKind × Nat) → List ADFNode → List ADFNode
  | [], _, content => content
  | line :: rest, curr, content =>
    if jsTrim line = "" then
      -- blank line: close any open list, emit nothing
      convertLoop rest none content
    else if jsStartsWith (jsTrim line) "- " then
      -- bullet item
      match curr with
      | some (ListKind.bullet, idx) =>
        convertLoop rest curr
          (modifyIdx content idx (pushItem (mkItem (jsDrop (jsTrim line) 2))))
      | _ =>
        convertLoop rest (some (ListKind.bullet, content.length))
          (content ++ [ADFNode.bulletList [mkItem (jsDrop (jsTrim line) 2)]])
    else
      match orderedSplit (jsTrim line) with
      | some item =>
        -- ordered item
        (match curr with
        | some (ListKind.ordered, idx) =>
          convertLoop rest curr (modifyIdx content idx (pushItem (mkItem item)))
        | _ =>
          convertLoop rest (some (ListKind.ordered, content.length))
            (content ++ [ADFNode.orderedList [mkItem item]]))
      | none =>
        if jsEndsWith (jsTrim line) ":" ∧ jsTrim (rest.headD "") = "" then
          -- heading; the source does not reset currentList/currentListType here
          convertLoop rest curr
            (content ++ [ADFNode.heading 3 [ADFNode.text (jsTrim line)]])
        else
          -- regular paragraph: close any open list
          convertLoop rest none (content ++ [ADFNode.paragraph [ADFNode.text line]])

/-- The ADF document returned by `convertToADF` (src/index.ts lines 268-272). -/
structure ADFDoc where
  version : Nat
  content : List ADFNode
deriving Repr

/-- `convertToADF` (src/index.ts lines 166-273). -/
def convertToADF (text : String) : ADFDoc :=
  { version := 1, content := convertLoop (jsSplitLines text) none [] }

/-! ### Reference converter following the specification's words -/

/-- The list kind a (trimmed) line is recognized as, if any: bullet when it
starts with `"- "`, ordered when it matches `/^\d+\.\s/`. -/
def lineKind (t : String) : Option ListKind :=
  if jsStartsWith t "- " then some ListKind.bullet
  else if (orderedSplit t).isSome then some ListKind.ordered
  else none

/-- The item text extracted from a (trimmed) list line of the given kind. -/
def itemOf : ListKind → String → String
  | ListKind.bullet, t => jsDrop t 2
  | ListKind.ordered, t => (orderedSplit t).getD t

/-- Collect the maximal leading run of lines recognized as list kind `k`,
returning their item texts and the remaining lines. -/
def collectRun (k : ListKind) : List String → List String × List String
  | [] => ([], [])
  | line :: rest =>
    if lineKind (jsTrim line) = some k then
      ((itemOf k (jsTrim line)) :: (collectRun k rest).1, (collectRun k rest).2)
    else ([], line :: rest)

theorem collectRun_rest_length (k : ListKind) :
    ∀ l : List String, (collectRun k l).2.length ≤ l.length := by
  intro l
  induction l with
  | nil => simp [collectRun]
  | cons line rest ih =>
    by_cases h : lineKind (jsTrim line) = some k
    · simp only [collectRun, if_pos h]
      exact le_trans ih (Nat.le_succ _)
    · simp [collectRun, if_neg h]

/-- Reference converter, written from the specification's words: a maximal
run of consecutive lines of the same list kind becomes exactly one `List`
node of that kind holding all its items in order; a blank line emits
nothing; a non-list line whose trimmed text ends in `:` and whose next line
is blank (or absent) becomes a heading that closes any open list; any other
non-blank line becomes a paragraph that closes any open list. -/
def convertSpec : List String → List ADFNode
  | [] => []
  | line :: rest =>
    if jsTrim line = "" then convertSpec rest
    else
      match lineKind (jsTrim line) with
      | some k =>
        mkList k ((itemOf k (jsTrim line) :: (collectRun k rest).1).map mkItem) ::
          convertSpec (collectRun k rest).2
      | none =>
        if jsEndsWith (jsTrim line) ":" ∧ jsTrim (rest.headD "") = "" then
          ADFNode.heading 3 [ADFNode.text (jsTrim line)] :: convertSpec rest
        else
          ADFNode.paragraph [ADFNode.text line] :: convertSpec rest
termination_by l => l.length
decreasing_by
  all_goals simp only [List.length_cons]
  all_goals first
    | exact Nat.lt_succ_of_le (collectRun_rest_length _ _)
    | exact Nat.lt_succ_self _

/-- A well-formed plain list item: `listItem [paragraph [text _]]`. -/
def isPlainItem : ADFNode → Bool
  | .listItem [.paragraph [.text _]] => true
  | _ => false

/-- Shape of a top-level output node: a paragraph or heading holding a
single text node, or a list node all of whose direct children are plain
list items (in particular never another list). -/
def nodeOk : ADFNode → Bool
  | .paragraph [.text _] => true
  | .heading 3 [.text _] => true
  | .bulletList c => c.all isPlainItem
  | .orderedList c => c.all isPlainItem
  | _ => false

-- sanity checks on the embedded string builtins
example : jsTrim "  a b " = "a b" := by decide
example : jsTrim "Overview:" = "Overview:" := by decide
example : jsSplitLines "a\nb\n" = ["a", "b", ""] := by decide
example : jsSplitLines "" = [""] := by decide
example : orderedSplit "12. x" = some "x" := by decide
example : orderedSplit "1." = none := by decide
example : orderedSplit "a. x" = none := by decide
example : jsDrop "- abc" 2 = "abc" := by decide
example : jsToLower "Done" = "done" := by decide

-- sanity checks on the converter
example : (convertToADF "- a\n- b").content =
    [ADFNode.bulletList [mkItem "a", mkItem "b"]] := rfl
example : (convertToADF "- a\n1. b").content =
    [ADFNode.bulletList [mkItem "a"], ADFNode.orderedList [mkItem "b"]] := rfl
example : (convertToADF "Overview:\n").content =
    [ADFNode.heading 3 [ADFNode.text "Overview:"]] := rfl
example : (convertToADF "Overview:\nmore text").content =
    [ADFNode.paragraph [ADFNode.text "Overview:"],
     ADFNode.paragraph [ADFNode.text "more text"]] := rfl
example : (convertToADF "- a\n\n- b").content =
    [ADFNode.bulletList [mkItem "a"], ADFNode.bulletList [mkItem "b"]] := rfl

/-! ### Simulation: the source loop agrees with the reference converter -/

theorem modifyIdx_append (l : List ADFNode) (x : ADFNode) (f : ADFNode → ADFNode) :
    modifyIdx (l ++ [x]) l.length f = l ++ [f x] := by
  induction l with
  | nil => rfl
  | cons a as ih => simp [modifyIdx, ih]

theorem pushItem_mkList (k : ListKind) (c : List ADFNode) (n : ADFNode) :
    pushItem n (mkList k c) = mkList k (c ++ [n]) := by
  cases k <;> rfl

theorem lineKind_of_bullet {t : String} (hb : jsStartsWith t "- " = true) :
    lineKind t = some ListKind.bullet := by
  simp [lineKind, hb]

theorem lineKind_of_ordered {t : String} (hb : jsStartsWith t "- " = false)
    {item : String} (ho : orderedSplit t = some item) :
    lineKind t = some ListKind.ordered := by
  simp [lineKind, hb, ho]

theorem lineKind_of_other {t : String} (hb : jsStartsWith t "- " = false)
    (ho : orderedSplit t = none) : lineKind t = none := by
  simp [lineKind, hb, ho]

theorem lineKind_of_blank : lineKind "" = none := by decide

theorem jsTrim_empty : jsTrim "" = "" := by decide

theorem map_mkItem_all_plain (xs : List String) :
    (xs.map mkItem).all isPlainItem = true := by
  simp only [List.all_eq_true]
  intro x hx
  rcases List.mem_map.mp hx with ⟨s, _, rfl⟩
  rfl

/-- Main simulation lemma, by strong induction on the number of lines.
Part one: starting with no open list, the loop appends exactly the
reference conversion of the remaining lines.  Part two: starting with an
open list of kind `k` holding `items`, sitting last in the accumulated
content at index `content.length`, the loop first extends that single node
by the maximal run of `k`-lines and then continues as in part one. -/
theorem convertLoop_sim :
    ∀ (n : Nat) (lines : List String), lines.length ≤ n →
    (∀ content : List ADFNode,
        convertLoop lines none content = content ++ convertSpec lines) ∧
    (∀ (content : List ADFNode) (k : ListKind) (items : List String),
        convertLoop lines (some (k, content.length))
            (content ++ [mkList k (items.map mkItem)]) =
          content ++ [mkList k ((items ++ (collectRun k lines).1).map mkItem)] ++
            convertSpec (collectRun k lines).2) := by
  intro n
  induction n with
  | zero =>
    intro lines hlen
    have hnil : lines = [] := List.eq_nil_of_length_eq_zero (Nat.le_zero.mp hlen)
    subst hnil
    refine ⟨fun content => by simp [convertLoop, convertSpec], ?_⟩
    intro content k items
    simp [convertLoop, convertSpec, collectRun]
  | succ n ih =>
    intro lines hlen
    cases lines with
    | nil =>
      refine ⟨fun content => by simp [convertLoop, convertSpec], ?_⟩
      intro content k items
      simp [convertLoop, convertSpec, collectRun]
    | cons line rest =>
      have hrest : rest.length ≤ n := by
        have : rest.length + 1 ≤ n + 1 := by simpa using hlen
        omega
      by_cases ht : jsTrim line = ""
      · -- blank line: closes any open list, emits nothing
        constructor
        · intro content
          have hstep : convertLoop (line :: rest) none content
              = convertLoop rest none content := by
            simp [convertLoop, ht]
          have hspec : convertSpec (line :: rest) = convertSpec rest := by
            simp [convertSpec, ht]
          rw [hstep, (ih rest hrest).1, hspec]
        · intro content k items
          have hstep : convertLoop (line :: rest) (some (k, content.length))
                (content ++ [mkList k (items.map mkItem)])
              = convertLoop rest none (content ++ [mkList k (items.map mkItem)]) := by
            simp [convertLoop, ht]
          have hkind : lineKind (jsTrim line) = none := by
            rw [ht]; exact lineKind_of_blank
          have hrun : collectRun k (line :: rest) = ([], line :: rest) := by
            simp [collectRun, hkind]
          have hspec : convertSpec (line :: rest) = convertSpec rest := by
            simp [convertSpec, ht]
          rw [hstep, (ih rest hrest).1, hrun]
          simp [hspec, List.append_assoc]
      · by_cases hb : jsStartsWith (jsTrim line) "- " = true
        · -- bullet line
          have hkind : lineKind (jsTrim line) = some ListKind.bullet :=
            lineKind_of_bullet hb
          have hrun : collectRun ListKind.bullet (line :: rest)
              = (jsDrop (jsTrim line) 2 :: (collectRun ListKind.bullet rest).1,
                 (collectRun ListKind.bullet rest).2) := by
            simp [collectRun, hkind, itemOf]
          have hspec : convertSpec (line :: rest)
              = mkList ListKind.bullet
                  ((jsDrop (jsTrim line) 2 ::
                    (collectRun ListKind.bullet rest).1).map mkItem) ::
                convertSpec (collectRun ListKind.bullet rest).2 := by
            simp [convertSpec, ht, hkind, itemOf]
          constructor
          · intro content
            have hstep : convertLoop (line :: rest) none content
                = convertLoop rest (some (ListKind.bullet, content.length))
                    (content ++ [mkList ListKind.bullet
                      ([jsDrop (jsTrim line) 2].map mkItem)]) := by
              simp [convertLoop, ht, hb, mkList]
            rw [hstep,
              (ih rest hrest).2 content ListKind.bullet [jsDrop (jsTrim line) 2],
              hspec]
            simp [List.append_assoc]
          · intro content k items
            cases k with
            | bullet =>
              have hstep : convertLoop (line :: rest)
                    (some (ListKind.bullet, content.length))
                    (content ++ [mkList ListKind.bullet (items.map mkItem)])
                  = convertLoop rest (some (ListKind.bullet, content.length))
                      (content ++ [mkList ListKind.bullet
                        ((items ++ [jsDrop (jsTrim line) 2]).map mkItem)]) := by
                simp [convertLoop, ht, hb, modifyIdx_append, pushItem_mkList]
              rw [hstep,
                (ih rest hrest).2 content ListKind.bullet
                  (items ++ [jsDrop (jsTrim line) 2]),
                hrun]
              simp [List.append_assoc]
            | ordered =>
              have hstep : convertLoop (line :: rest)
                    (some (ListKind.ordered, content.length))
                    (content ++ [mkList ListKind.ordered (items.map mkItem)])
                  = convertLoop rest
                      (some (ListKind.bullet,
                        (content ++ [mkList ListKind.ordered (items.map mkItem)]).length))
                      ((content ++ [mkList ListKind.ordered (items.map mkItem)])
                        ++ [mkList ListKind.bullet
                          ([jsDrop (jsTrim line) 2].map mkItem)]) := by
                simp [convertLoop, ht, hb, mkList]
              have hrun2 : collectRun ListKind.ordered (line :: rest)
                  = ([], line :: rest) := by
                simp [collectRun, hkind]
              rw [hstep,
                (ih rest hrest).2
                  (content ++ [mkList ListKind.ordered (items.map mkItem)])
                  ListKind.bullet [jsDrop (jsTrim line) 2],
                hrun2]
              simp [hspec, List.append_assoc]
        · have hbf : jsStartsWith (jsTrim line) "- " = false := by
            simpa using hb
          cases ho : orderedSplit (jsTrim line) with
          | some item =>
            -- ordered line
            have hkind : lineKind (jsTrim line) = some ListKind.ordered :=
              lineKind_of_ordered hbf ho
            have hitem : itemOf ListKind.ordered (jsTrim line) = item := by
              simp [itemOf, ho]
            have hrun : collectRun ListKind.ordered (line :: rest)
                = (item :: (collectRun ListKind.ordered rest).1,
                   (collectRun ListKind.ordered rest).2) := by
              simp [collectRun, hkind, hitem]
            have hspec : convertSpec (line :: rest)
                = mkList ListKind.ordered
                    ((item :: (collectRun ListKind.ordered rest).1).map mkItem) ::
                  convertSpec (collectRun ListKind.ordered rest).2 := by
              simp [convertSpec, ht, hkind, hitem]
            constructor
            · intro content
              have hstep : convertLoop (line :: rest) none content
                  = convertLoop rest (some (ListKind.ordered, content.length))
                      (content ++ [mkList ListKind.ordered ([item].map mkItem)]) := by
                simp [convertLoop, ht, hbf, ho, mkList]
              rw [hstep, (ih rest hrest).2 content ListKind.ordered [item], hspec]
              simp [List.append_assoc]
            · intro content k items
              cases k with
              | ordered =>
                have hstep : convertLoop (line :: rest)
                      (some (ListKind.ordered, content.length))
                      (content ++ [mkList ListKind.ordered (items.map mkItem)])
                    = convertLoop rest (some (ListKind.ordered, content.length))
                        (content ++ [mkList ListKind.ordered
                          ((items ++ [item]).map mkItem)]) := by
                  simp [convertLoop, ht, hbf, ho, modifyIdx_append, pushItem_mkList]
                rw [hstep,
                  (ih rest hrest).2 content ListKind.ordered (items ++ [item]),
                  hrun]
                simp [List.append_assoc]
              | bullet =>
                have hstep : convertLoop (line :: rest)
                      (some (ListKind.bullet, content.length))
                      (content ++ [mkList ListKind.bullet (items.map mkItem)])
                    = convertLoop rest
                        (some (ListKind.ordered,
                          (content ++ [mkList ListKind.bullet (items.map mkItem)]).length))
                        ((content ++ [mkList ListKind.bullet (items.map mkItem)])
                          ++ [mkList ListKind.ordered ([item].map mkItem)]) := by
                  simp [convertLoop, ht, hbf, ho, mkList]
                have hrun2 : collectRun ListKind.bullet (line :: rest)
                    = ([], line :: rest) := by
                  simp [collectRun, hkind]
                rw [hstep,
                  (ih rest hrest).2
                    (content ++ [mkList ListKind.bullet (items.map mkItem)])
                    ListKind.ordered [item],
                  hrun2]
                simp [hspec, List.append_assoc]
          | none =>
            have hkind : lineKind (jsTrim line) = none :=
              lineKind_of_other hbf ho
            by_cases hh : jsEndsWith (jsTrim line) ":" = true ∧
                jsTrim (rest.headD "") = ""
            · -- heading line (next line blank or absent)
              have hh2 : jsTrim (rest.head?.getD "") = "" := by
                simpa using hh.2
              have hspec : convertSpec (line :: rest)
                  = ADFNode.heading 3 [ADFNode.text (jsTrim line)] ::
                    convertSpec rest := by
                simp [convertSpec, ht, hkind, hh.1, hh2]
              constructor
              · intro content
                have hstep : convertLoop (line :: rest) none content
                    = convertLoop rest none
                        (content ++ [ADFNode.heading 3 [ADFNode.text (jsTrim line)]]) := by
                  simp [convertLoop, ht, hbf, ho, hh.1, hh2]
                rw [hstep, (ih rest hrest).1, hspec]
                simp [List.append_assoc]
              · intro content k items
                have hrun : collectRun k (line :: rest) = ([], line :: rest) := by
                  simp [collectRun, hkind]
                cases rest with
                | nil =>
                  have hstep : convertLoop [line] (some (k, content.length))
                        (content ++ [mkList k (items.map mkItem)])
                      = (content ++ [mkList k (items.map mkItem)])
                        ++ [ADFNode.heading 3 [ADFNode.text (jsTrim line)]] := by
                    simp [convertLoop, ht, hbf, ho, hh.1, jsTrim_empty]
                  have hspec1 : convertSpec [line]
                      = [ADFNode.heading 3 [ADFNode.text (jsTrim line)]] := by
                    simp [convertSpec, ht, hkind, hh.1, jsTrim_empty]
                  rw [hstep, hrun]
                  simp [hspec1, List.append_assoc]
                | cons r rs =>
                  have hr : jsTrim r = "" := by simpa using hh.2
                  have hrs : rs.length ≤ n := by
                    have : rs.length + 1 ≤ n := by simpa using hrest
                    omega
                  have hstep : convertLoop (line :: r :: rs)
                        (some (k, content.length))
                        (content ++ [mkList k (items.map mkItem)])
                      = convertLoop rs none
                          ((content ++ [mkList k (items.map mkItem)])
                            ++ [ADFNode.heading 3 [ADFNode.text (jsTrim line)]]) := by
                    simp [convertLoop, ht, hbf, ho, hh.1, hr]
                  have hspec2 : convertSpec (r :: rs) = convertSpec rs := by
                    simp [convertSpec, hr]
                  rw [hstep, (ih rs hrs).1, hrun]
                  simp [hspec, hspec2, List.append_assoc]
            · -- plain paragraph line
              have hh' : ¬(jsEndsWith (jsTrim line) ":" = true ∧
                  jsTrim (rest.head?.getD "") = "") := by
                simpa using hh
              have hspec : convertSpec (line :: rest)
                  = ADFNode.paragraph [ADFNode.text line] :: convertSpec rest := by
                simp [convertSpec, ht, hkind, hh']
              constructor
              · intro content
                have hstep : convertLoop (line :: rest) none content
                    = convertLoop rest none
                        (content ++ [ADFNode.paragraph [ADFNode.text line]]) := by
                  simp [convertLoop, ht, hbf, ho, hh']
                rw [hstep, (ih rest hrest).1, hspec]
                simp [List.append_assoc]
              · intro content k items
                have hrun : collectRun k (line :: rest) = ([], line :: rest) := by
                  simp [collectRun, hkind]
                have hstep : convertLoop (line :: rest) (some (k, content.length))
                      (content ++ [mkList k (items.map mkItem)])
                    = convertLoop rest none
                        ((content ++ [mkList k (items.map mkItem)])
                          ++ [ADFNode.paragraph [ADFNode.text line]]) := by
                  simp [convertLoop, ht, hbf, ho, hh']
                rw [hstep, (ih rest hrest).1, hrun]
                simp [hspec, List.append_assoc]

/-- Every node produced by the reference converter is a paragraph or heading
holding a single text node, or a list node whose direct children are all
plain list items (so a list never directly contains a list). -/
theorem convertSpec_nodeOk :
    ∀ (n : Nat) (lines : List String), lines.length ≤ n →
    ∀ node ∈ convertSpec lines, nodeOk node = true := by
  intro n
  induction n with
  | zero =>
    intro lines hlen
    have hnil : lines = [] := List.eq_nil_of_length_eq_zero (Nat.le_zero.mp hlen)
    subst hnil
    simp [convertSpec]
  | succ n ih =>
    intro lines hlen
    cases lines with
    | nil => simp [convertSpec]
    | cons line rest =>
      have hrest : rest.length ≤ n := by
        have : rest.length + 1 ≤ n + 1 := by simpa using hlen
        omega
      by_cases ht : jsTrim line = ""
      · have hspec : convertSpec (line :: rest) = convertSpec rest := by
          simp [convertSpec, ht]
        rw [hspec]
        exact ih rest hrest
      · cases hk : lineKind (jsTrim line) with
        | some k =>
          have hspec : convertSpec (line :: rest)
              = mkList k ((itemOf k (jsTrim line) ::
                  (collectRun k rest).1).map mkItem) ::
                convertSpec (collectRun k rest).2 := by
            simp [convertSpec, ht, hk]
          rw [hspec]
          intro node hnode
          rcases List.mem_cons.mp hnode with h | h
          · subst h
            cases k <;>
              · simp only [mkList, nodeOk, List.all_eq_true]
                intro x hx
                rcases List.mem_map.mp hx with ⟨s, hs, rfl⟩
                rfl
          · exact ih (collectRun k rest).2
              (le_trans (collectRun_rest_length k rest) hrest) node h
        | none =>
          by_cases hh : jsEndsWith (jsTrim line) ":" = true ∧
              jsTrim (rest.headD "") = ""
          · have hh2 : jsTrim (rest.head?.getD "") = "" := by simpa using hh.2
            have hspec : convertSpec (line :: rest)
                = ADFNode.heading 3 [ADFNode.text (jsTrim line)] ::
                  convertSpec rest := by
              simp [convertSpec, ht, hk, hh.1, hh2]
            rw [hspec]
            intro node hnode
            rcases List.mem_cons.mp hnode with h | h
            · subst h; rfl
            · exact ih rest hrest node h
          · have hh' : ¬(jsEndsWith (jsTrim line) ":" = true ∧
                jsTrim (rest.head?.getD "") = "") := by simpa using hh
            have hspec : convertSpec (line :: rest)
                = ADFNode.paragraph [ADFNode.text line] :: convertSpec rest := by
              simp [convertSpec, ht, hk, hh']
            rw [hspec]
            intro node hnode
            rcases List.mem_cons.mp hnode with h | h
            · subst h; rfl
            · exact ih rest hrest node h

/-- **C1.** For every input text block, consecutive input lines recognized
as the same list kind (bullet or ordered) collapse into exactly one `List`
node of that kind containing all their items in original input order, and a
blank line, a change of list kind, or a non-list line closes the currently
open list, so a later same-kind list line starts a new top-level `List`
node: the content of `convertToADF text` equals the reference conversion
`convertSpec`, which groups exactly the maximal same-kind runs, one `List`
node per run.  Moreover no `List` node in the output ever directly contains
another `List` node (every direct child of a list node is a plain
`listItem`), and the spec's mixed-input example `"- a"` then `"1. b"`
yields two separate top-level list nodes. -/
theorem converter_list_run_collapse (text : String) :
    (convertToADF text).content = convertSpec (jsSplitLines text) ∧
    (∀ node ∈ (convertToADF text).content, nodeOk node = true) ∧
    (convertToADF "- a\n1. b").content =
      [ADFNode.bulletList [mkItem "a"], ADFNode.orderedList [mkItem "b"]] := by
  have heq : (convertToADF text).content = convertSpec (jsSplitLines text) := by
    simpa [convertToADF] using
      (convertLoop_sim (jsSplitLines text).length (jsSplitLines text) le_rfl).1 []
  refine ⟨heq, ?_, rfl⟩
  rw [heq]
  exact convertSpec_nodeOk (jsSplitLines text).length (jsSplitLines text) le_rfl

/-- **C2.** For every line of the converter's input that is non-blank and
not a bullet or ordered-list line: if its trimmed text ends with `:` and
the immediately following line is empty or whitespace-only (or the block
ends), the converter emits a `heading` node at the single fixed level 3
holding the trimmed line text and closes any open list (the continuation
behaves exactly as with no open list); if instead the next line is
non-blank, the line is emitted as a `paragraph` node holding the raw
(non-trimmed) line text, closing any open list. -/
theorem converter_heading_vs_paragraph (line : String) (rest : List String)
    (curr : Option (ListKind × Nat)) (content : List ADFNode)
    (h0 : jsTrim line ≠ "")
    (h1 : jsStartsWith (jsTrim line) "- " = false)
    (h2 : orderedSplit (jsTrim line) = none) :
    (jsEndsWith (jsTrim line) ":" = true ∧ jsTrim (rest.headD "") = "" →
      convertLoop (line :: rest) curr content =
        convertLoop rest none
          (content ++ [ADFNode.heading 3 [ADFNode.text (jsTrim line)]])) ∧
    (jsTrim (rest.headD "") ≠ "" →
      convertLoop (line :: rest) curr content =
        convertLoop rest none
          (content ++ [ADFNode.paragraph [ADFNode.text line]])) := by
  constructor
  · intro hh
    have hstep : convertLoop (line :: rest) curr content
        = convertLoop rest curr
            (content ++ [ADFNode.heading 3 [ADFNode.text (jsTrim line)]]) := by
      have hh2 : jsTrim (rest.head?.getD "") = "" := by simpa using hh.2
      simp [convertLoop, h0, h1, h2, hh.1, hh2]
    rw [hstep]
    cases rest with
    | nil => rfl
    | cons r rs =>
      have hr : jsTrim r = "" := by simpa using hh.2
      simp [convertLoop, hr]
  · intro hnb
    have hh' : ¬(jsEndsWith (jsTrim line) ":" = true ∧
        jsTrim (rest.head?.getD "") = "") := by
      intro h
      exact hnb (by simpa using h.2)
    simp [convertLoop, h0, h1, h2, hh']

/-- Witness for C2 at the spec's own example: the line `"Overview:"`
followed by a blank line becomes a heading; followed by `"more text"` it
becomes a paragraph. -/
theorem converter_heading_vs_paragraph_witness :
    (jsTrim "Overview:" ≠ "" ∧
     jsStartsWith (jsTrim "Overview:") "- " = false ∧
     orderedSplit (jsTrim "Overview:") = none) ∧
    ((jsEndsWith (jsTrim "Overview:") ":" = true ∧
        jsTrim ((["", "x"] : List String).headD "") = "" →
      convertLoop ("Overview:" :: ["", "x"]) (some (ListKind.bullet, 0))
          [ADFNode.bulletList [mkItem "a"]] =
        convertLoop ["", "x"] none
          ([ADFNode.bulletList [mkItem "a"]] ++
            [ADFNode.heading 3 [ADFNode.text (jsTrim "Overview:")]])) ∧
     (jsTrim ((["", "x"] : List String).headD "") ≠ "" →
      convertLoop ("Overview:" :: ["", "x"]) (some (ListKind.bullet, 0))
          [ADFNode.bulletList [mkItem "a"]] =
        convertLoop ["", "x"] none
          ([ADFNode.bulletList [mkItem "a"]] ++
            [ADFNode.paragraph [ADFNode.text "Overview:"]]))) :=
  ⟨⟨by decide, by decide, by decide⟩,
    converter_heading_vs_paragraph "Overview:" ["", "x"]
      (some (ListKind.bullet, 0)) [ADFNode.bulletList [mkItem "a"]]
      (by decide) (by decide) (by decide)⟩

/-! ### The tool dispatcher, validators and Jira-client call traces -/

/-- A runtime value in a loosely-typed argument slot that the validators
type-check: a string, or some non-string value. -/
inductive JSArg where
  | str (s : String)
  | other
deriving Repr, DecidableEq

/-- The raw argument bag of a tool call (`request.params.arguments`), with
one slot per field any of the tools reads; an absent field is `none`.
Slots that some validator type-checks are loosely typed (`JSArg`); slots
that are only ever read optionally are modelled as a present string, a
present string list, or absent. -/
structure RawBag where
  issueKey : Option JSArg := none
  projectKey : Option JSArg := none
  summary : Option JSArg := none
  issueType : Option JSArg := none
  email : Option JSArg := none
  inwardIssueKey : Option JSArg := none
  outwardIssueKey : Option JSArg := none
  linkType : Option JSArg := none
  jql : Option String := none
  description : Option String := none
  assignee : Option String := none
  status : Option String := none
  priority : Option String := none
  parent : Option String := none
  labels : Option (List String) := none
  components : Option (List String) := none
deriving Repr

/-- `ErrorCode.InvalidParams` (JSON-RPC number used by the MCP SDK). -/
def invalidParamsCode : Int := -32602

/-- `ErrorCode.MethodNotFound` (JSON-RPC number used by the MCP SDK). -/
def methodNotFoundCode : Int := -32601

/-- Model of a thrown `McpError` (MCP SDK): error code plus the message
given at the throw site. -/
structure McpErr where
  code : Int
  msg : String
deriving Repr, DecidableEq

/-- The `message` property of a thrown `McpError`, as the MCP SDK's
constructor formats it: `` `MCP error ${code}: ${message}` ``. -/
def McpErr.rendered (e : McpErr) : String :=
  "MCP error " ++ toString e.code ++ ": " ++ e.msg

/-- A JSON value: models the structured payloads handed to
`JSON.stringify`; object fields are kept in construction order. -/
inductive JVal where
  | str (s : String)
  | num (n : Int)
  | bool (b : Bool)
  | null
  | arr (xs : List JVal)
  | obj (fields : List (String × JVal))
deriving Repr

/-- The `text` of a content item: either a JSON payload (the source calls
`JSON.stringify(v, null, 2)`) or a plain string from a template literal. -/
inductive TextVal where
  | json (v : JVal)
  | raw (s : String)
deriving Repr

/-- One element of the envelope's `content` array. -/
structure ContentItem where
  type : String
  text : TextVal
deriving Repr

/-- The response envelope `{content, isError?}`; `isError := none` models
the field being absent. -/
structure Envelope where
  content : List ContentItem
  isError : Option Bool := none
deriving Repr

/-- An envelope with a single pretty-printed JSON text element and no
`isError` field, as produced on every success path. -/
def jsonEnvelope (v : JVal) : Envelope :=
  { content := [{ type := "text", text := TextVal.json v }] }

/-- An `isError: true` envelope with a single plain-text element. -/
def rawErrorEnvelope (s : String) : Envelope :=
  { content := [{ type := "text", text := TextVal.raw s }], isError := some true }

/-- A user record as returned by the client's `searchUsers`. -/
structure JUser where
  accountId : String
  displayName : String
  emailAddress : String
deriving Repr, DecidableEq

/-- A transition as returned by the client's `listTransitions`. -/
structure JTransition where
  id : String
  name : String
deriving Repr, DecidableEq

/-- An issue type as returned by the client's `listIssueTypes`. -/
structure JIssueType where
  id : String
  name : String
  description : Option String
  subtask : Bool
deriving Repr

/-- The `updateFields` object accumulated by the update_issue case
(src/index.ts lines 735-768); each slot is absent or holds the value the
source stores (`assignee` holds the `accountId`, `priority` the name). -/
structure UpdateFieldsSent where
  summary : Option String := none
  description : Option ADFDoc := none
  assignee : Option String := none
  priority : Option String := none
deriving Repr

/-- `Object.keys(updateFields).length > 0` (src/index.ts line 770). -/
def UpdateFieldsSent.nonempty (f : UpdateFieldsSent) : Bool :=
  f.summary.isSome || f.description.isSome || f.assignee.isSome || f.priority.isSome

/-- The `fields` object passed to `addNewIssue` (src/index.ts lines
865-879); `components` keeps the component names the source wraps as
`{name}` objects, `parent` the key wrapped as `{key}`. -/
structure CreateFieldsSent where
  project : String
  summary : String
  issuetype : String
  description : Option ADFDoc
  assignee : String
  labels : Option (List String)
  components : Option (List String)
  priority : Option String
  parent : Option String
deriving Repr

/-- One call to the Jira client, recording the arguments the source passes. -/
inductive JiraCall where
  | listIssueLinkTypes
  | listIssueTypes
  | searchJira (jql : String) (maxResults : Nat) (fields : List String)
  | searchUsers (query : String) (includeActive : Bool) (maxResults : Nat)
  | listTransitions (issueKey : String)
  | transitionIssue (issueKey : String) (transitionId : String)
  | updateIssue (issueKey : String) (fields : UpdateFieldsSent)
  | addNewIssue (fields : CreateFieldsSent)
  | deleteIssue (issueKey : String)
  | issueLink (inward : String) (outward : String) (linkName : String)
deriving Repr

/-- The environment modelling the external Jira client's responses (keyed
by the request data the source branches on) and the configured host
(`JIRA_HOST`); every workflow is deterministic given it. -/
structure JiraEnv where
  host : String
  searchUsersResp : String → List JUser
  transitionsResp : String → List JTransition
  searchIssuesResp : String → JVal
  issueTypesResp : List JIssueType
  linkTypesResp : JVal
  createdId : String
  createdKey : String

/-- `typeof x === "string" && x.length > 0` for a bag slot. -/
def isNonEmptyStr : Option JSArg → Bool
  | some (JSArg.str s) => s != ""
  | _ => false

/-- Read a validated string slot (the validator guarantees `some (str s)`
on every reachable use). -/
def getStr : Option JSArg → String
  | some (JSArg.str s) => s
  | _ => ""

/-- JavaScript truthiness of an optional string argument (`undefined` and
`""` are both falsy). -/
def optTruthy : Option String → Option String
  | some s => if s = "" then none else some s
  | none => none

/-- Truthiness of a loosely-typed slot read as an optional string. -/
def argTruthy : Option JSArg → Option String
  | some (JSArg.str s) => if s = "" then none else some s
  | _ => none

/-- `validateDeleteIssueArgs` (src/index.ts lines 482-500). -/
def validateDeleteIssueArgs (args : Option RawBag) : Except McpErr Unit :=
  match args with
  | none => .error ⟨invalidParamsCode, "Arguments must be an object"⟩
  | some bag =>
    if isNonEmptyStr bag.issueKey then .ok ()
    else .error ⟨invalidParamsCode, "Issue key is required and must be a string"⟩

/-- `validateCreateIssueArgs` (src/index.ts lines 502-534). -/
def validateCreateIssueArgs (args : Option RawBag) : Except McpErr Unit :=
  match args with
  | none => .error ⟨invalidParamsCode, "Arguments must be an object"⟩
  | some bag =>
    if !isNonEmptyStr bag.projectKey then
      .error ⟨invalidParamsCode, "Project key is required and must be a string"⟩
    else if !isNonEmptyStr bag.summary then
      .error ⟨invalidParamsCode, "Summary is required and must be a string"⟩
    else if !isNonEmptyStr bag.issueType then
      .error ⟨invalidParamsCode, "Issue type is required and must be a string"⟩
    else .ok ()

/-- `validateGetUserArgs` (src/index.ts lines 536-554). -/
def validateGetUserArgs (args : Option RawBag) : Except McpErr Unit :=
  match args with
  | none => .error ⟨invalidParamsCode, "Arguments must be an object"⟩
  | some bag =>
    if isNonEmptyStr bag.email then .ok ()
    else .error ⟨invalidParamsCode, "Email is required and must be a string"⟩

/-- `validateGetIssuesArgs` (src/index.ts lines 556-574). -/
def validateGetIssuesArgs (args : Option RawBag) : Except McpErr Unit :=
  match args with
  | none => .error ⟨invalidParamsCode, "Arguments must be an object"⟩
  | some bag =>
    if isNonEmptyStr bag.projectKey then .ok ()
    else .error ⟨invalidParamsCode, "Project key is required and must be a string"⟩

/-- `validateUpdateIssueArgs` (src/index.ts lines 576-594). -/
def validateUpdateIssueArgs (args : Option RawBag) : Except McpErr Unit :=
  match args with
  | none => .error ⟨invalidParamsCode, "Arguments must be an object"⟩
  | some bag =>
    if isNonEmptyStr bag.issueKey then .ok ()
    else .error ⟨invalidParamsCode, "Issue key is required and must be a string"⟩

/-- `validateCreateIssueLinkArgs` (src/index.ts lines 596-631). -/
def validateCreateIssueLinkArgs (args : Option RawBag) : Except McpErr Unit :=
  match args with
  | none => .error ⟨invalidParamsCode, "Arguments must be an object"⟩
  | some bag =>
    if !isNonEmptyStr bag.inwardIssueKey then
      .error ⟨invalidParamsCode, "Inward issue key is required and must be a string"⟩
    else if !isNonEmptyStr bag.outwardIssueKey then
      .error ⟨invalidParamsCode, "Outward issue key is required and must be a string"⟩
    else if !isNonEmptyStr bag.linkType then
      .error ⟨invalidParamsCode, "Link type is required and must be a string"⟩
    else .ok ()

/-- `DEFAULT_PROJECT.KEY` (src/index.ts line 40). -/
def DEFAULT_PROJECT_KEY : String := "CPG"

/-- `DEFAULT_MANAGER.EMAIL` (src/index.ts line 51). -/
def DEFAULT_MANAGER_EMAIL : String := "ghsstephens@gmail.com"

/-- The fixed field projection of the get_issues search
(src/index.ts lines 698-707). -/
def getIssuesFieldList : List String :=
  ["summary", "description", "status", "priority", "assignee", "issuetype",
   "parent", "subtasks"]

/-- The get_issues workflow (src/index.ts lines 677-718), post-validation. -/
def getIssuesRun (env : JiraEnv) (bag : RawBag) : List JiraCall × Envelope :=
  let jql :=
    match optTruthy bag.jql with
    | some j => "project = " ++ getStr bag.projectKey ++ " AND " ++ j
    | none => "project = " ++ getStr bag.projectKey
  ([JiraCall.searchJira jql 100 getIssuesFieldList],
   jsonEnvelope (env.searchIssuesResp jql))

/-- The update_issue success payload (src/index.ts lines 776-793). -/
def updateSuccessEnvelope (host issueKey : String) : Envelope :=
  jsonEnvelope (JVal.obj
    [("message", JVal.str "Issue updated successfully"),
     ("issue", JVal.obj
       [("key", JVal.str issueKey),
        ("url", JVal.str ("https://" ++ host ++ "/browse/" ++ issueKey))])])

/-- The update_issue workflow (src/index.ts lines 720-794), post-validation:
builds `updateFields` from the truthy optional arguments (`assignee` via a
user search, kept only when a user is found), resolves `status` via the
transition list and a case-insensitive name match (transitioning only on a
match), then issues one field-update call only when `updateFields` ended
nonempty, and returns the success payload unconditionally. -/
def updateIssueRun (env : JiraEnv) (bag : RawBag) : List JiraCall × Envelope :=
  let issueKey := getStr bag.issueKey
  let assigneeStep : List JiraCall × Option String :=
    match optTruthy bag.assignee with
    | none => ([], none)
    | some a =>
      ([JiraCall.searchUsers a true 1],
       match env.searchUsersResp a with
       | [] => none
       | u :: _ => some u.accountId)
  let statusStep : List JiraCall :=
    match optTruthy bag.status with
    | none => []
    | some s =>
      match (env.transitionsResp issueKey).find?
          (fun t => jsToLower t.name == jsToLower s) with
      | some t => [JiraCall.listTransitions issueKey,
                   JiraCall.transitionIssue issueKey t.id]
      | none => [JiraCall.listTransitions issueKey]
  let fields : UpdateFieldsSent :=
    { summary := argTruthy bag.summary,
      description := (optTruthy bag.description).map convertToADF,
      assignee := assigneeStep.2,
      priority := optTruthy bag.priority }
  let updCalls :=
    if fields.nonempty then [JiraCall.updateIssue issueKey fields] else []
  (assigneeStep.1 ++ statusStep ++ updCalls,
   updateSuccessEnvelope env.host issueKey)

/-- The get_user workflow (src/index.ts lines 796-845), post-validation. -/
def getUserRun (env : JiraEnv) (bag : RawBag) : List JiraCall × Envelope :=
  ([JiraCall.searchUsers (getStr bag.email) true 1],
   match env.searchUsersResp (getStr bag.email) with
   | [] =>
     rawErrorEnvelope ("No user found with email: " ++ getStr bag.email)
   | u :: _ =>
     jsonEnvelope (JVal.obj
       [("accountId", JVal.str u.accountId),
        ("displayName", JVal.str u.displayName),
        ("emailAddress", JVal.str u.emailAddress)]))

/-- The create_issue workflow (src/index.ts lines 847-900), post-validation. -/
def createIssueRun (env : JiraEnv) (bag : RawBag) : List JiraCall × Envelope :=
  let projectKey :=
    if getStr bag.projectKey = "" then DEFAULT_PROJECT_KEY
    else getStr bag.projectKey
  let assignee :=
    match optTruthy bag.assignee with
    | some a => a
    | none => DEFAULT_MANAGER_EMAIL
  ([JiraCall.addNewIssue
     { project := projectKey,
       summary := getStr bag.summary,
       issuetype := getStr bag.issueType,
       description := (optTruthy bag.description).map convertToADF,
       assignee := assignee,
       labels := bag.labels,
       components := bag.components,
       priority := optTruthy bag.priority,
       parent := optTruthy bag.parent }],
   jsonEnvelope (JVal.obj
     [("message", JVal.str "Issue created successfully"),
      ("issue", JVal.obj
        [("id", JVal.str env.createdId),
         ("key", JVal.str env.createdKey),
         ("url", JVal.str ("https://" ++ env.host ++ "/browse/" ++ env.createdKey))])]))

/-- The delete_issue workflow (src/index.ts lines 902-934), post-validation. -/
def deleteIssueRun (bag : RawBag) : List JiraCall × Envelope :=
  ([JiraCall.deleteIssue (getStr bag.issueKey)],
   jsonEnvelope (JVal.obj
     [("message", JVal.str "Issue deleted successfully"),
      ("issueKey", JVal.str (getStr bag.issueKey))]))

/-- The create_issue_link workflow (src/index.ts lines 936-976),
post-validation. -/
def createIssueLinkRun (bag : RawBag) : List JiraCall × Envelope :=
  ([JiraCall.issueLink (getStr bag.inwardIssueKey) (getStr bag.outwardIssueKey)
      (getStr bag.linkType)],
   jsonEnvelope (JVal.obj
     [("message", JVal.str "Issue link created successfully"),
      ("link", JVal.obj
        [("inward", JVal.str (getStr bag.inwardIssueKey)),
         ("outward", JVal.str (getStr bag.outwardIssueKey)),
         ("type", JVal.str (getStr bag.linkType))])]))

/-- The projection applied per issue type (src/index.ts lines 663-668);
`JSON.stringify` drops an absent description. -/
def issueTypeJson (t : JIssueType) : JVal :=
  JVal.obj ([("id", JVal.str t.id), ("name", JVal.str t.name)] ++
    (match t.description with
     | some d => [("description", JVal.str d)]
     | none => []) ++
    [("subtask", JVal.bool t.subtask)])

/-- The `try` body of the call-tool handler (src/index.ts lines 642-983):
the switch over the tool name. Note the source's switch has no
`list_fields` case even though `list_fields` is in the tool catalog, so
that name also reaches the default throw.  Returns the Jira-client calls
made and either the envelope or the thrown `McpError`. -/
def tryDispatch (env : JiraEnv) (name : String) (args : Option RawBag) :
    List JiraCall × Except McpErr Envelope :=
  if name = "list_link_types" then
    ([JiraCall.listIssueLinkTypes], .ok (jsonEnvelope env.linkTypesResp))
  else if name = "list_issue_types" then
    ([JiraCall.listIssueTypes],
     .ok (jsonEnvelope (JVal.arr (env.issueTypesResp.map issueTypeJson))))
  else if name = "get_issues" then
    match args with
    | none => ([], .error ⟨invalidParamsCode, "Arguments are required"⟩)
    | some bag =>
      match validateGetIssuesArgs (some bag) with
      | .error e => ([], .error e)
      | .ok _ => ((getIssuesRun env bag).1, .ok (getIssuesRun env bag).2)
  else if name = "update_issue" then
    match args with
    | none => ([], .error ⟨invalidParamsCode, "Arguments are required"⟩)
    | some bag =>
      match validateUpdateIssueArgs (some bag) with
      | .error e => ([], .error e)
      | .ok _ => ((updateIssueRun env bag).1, .ok (updateIssueRun env bag).2)
  else if name = "get_user" then
    match args with
    | none => ([], .error ⟨invalidParamsCode, "Arguments are required"⟩)
    | some bag =>
      match validateGetUserArgs (some bag) with
      | .error e => ([], .error e)
      | .ok _ => ((getUserRun env bag).1, .ok (getUserRun env bag).2)
  else if name = "create_issue" then
    match args with
    | none => ([], .error ⟨invalidParamsCode, "Arguments are required"⟩)
    | some bag =>
      match validateCreateIssueArgs (some bag) with
      | .error e => ([], .error e)
      | .ok _ => ((createIssueRun env bag).1, .ok (createIssueRun env bag).2)
  else if name = "delete_issue" then
    match args with
    | none => ([], .error ⟨invalidParamsCode, "Arguments are required"⟩)
    | some bag =>
      match validateDeleteIssueArgs (some bag) with
      | .error e => ([], .error e)
      | .ok _ => ((deleteIssueRun bag).1, .ok (deleteIssueRun bag).2)
  else if name = "create_issue_link" then
    match args with
    | none => ([], .error ⟨invalidParamsCode, "Arguments are required"⟩)
    | some bag =>
      match validateCreateIssueLinkArgs (some bag) with
      | .error e => ([], .error e)
      | .ok _ => ((createIssueLinkRun bag).1, .ok (createIssueLinkRun bag).2)
  else ([], .error ⟨methodNotFoundCode, "Unknown tool: " ++ name⟩)

/-- The full call-tool handler including the `catch` block (src/index.ts
lines 984-993): every thrown error -- the validators' and the default
case's `McpError` included -- is rendered into the generic failure
envelope `Operation failed: <message>` with `isError: true`. -/
def handleCallTool (env : JiraEnv) (name : String) (args : Option RawBag) :
    List JiraCall × Envelope :=
  match tryDispatch env name args with
  | (calls, Except.ok e) => (calls, e)
  | (calls, Except.error e) =>
    (calls, rawErrorEnvelope ("Operation failed: " ++ e.rendered))

/-- The validator that the source's switch invokes for the given tool name
(tools without required fields validate trivially). -/
def validateFor (name : String) (args : Option RawBag) : Except McpErr Unit :=
  if name = "get_issues" then validateGetIssuesArgs args
  else if name = "update_issue" then validateUpdateIssueArgs args
  else if name = "get_user" then validateGetUserArgs args
  else if name = "create_issue" then validateCreateIssueArgs args
  else if name = "delete_issue" then validateDeleteIssueArgs args
  else if name = "create_issue_link" then validateCreateIssueLinkArgs args
  else .ok ()

/-- The nine tool names of the catalog (`toolDefinitions`,
src/index.ts lines 278-447). -/
def catalogNames : List String :=
  ["delete_issue", "get_issues", "update_issue", "list_fields",
   "list_issue_types", "list_link_types", "get_user", "create_issue",
   "create_issue_link"]

/-- A concrete environment for witnesses: every search comes back empty. -/
def envEmpty : JiraEnv :=
  { host := "example.atlassian.net",
    searchUsersResp := fun _ => [],
    transitionsResp := fun _ => [],
    searchIssuesResp := fun _ => JVal.arr [],
    issueTypesResp := [],
    linkTypesResp := JVal.null,
    createdId := "10001",
    createdKey := "CPG-1" }

/-! ### Claim theorems about the dispatcher -/

/-- `true` iff the call is a transition-list lookup. -/
def JiraCall.isListTransitions : JiraCall → Bool
  | JiraCall.listTransitions _ => true
  | _ => false

/-- The assignee identifiers of the issue-creation calls in a trace. -/
def sentAssignees (calls : List JiraCall) : List String :=
  calls.filterMap fun c =>
    match c with
    | JiraCall.addNewIssue f => some f.assignee
    | _ => none

/-- The project keys of the issue-creation calls in a trace. -/
def sentProjectKeys (calls : List JiraCall) : List String :=
  calls.filterMap fun c =>
    match c with
    | JiraCall.addNewIssue f => some f.project
    | _ => none

/-- **C3.** For every update_issue call whose arguments contain only
`issueKey` and a (non-empty) `status`: no field-update call is issued (the
update-fields map stays empty), exactly one transition-list lookup is
performed, a transition call is performed iff some available transition's
name equals the requested status case-insensitively, when no transition
name matches the trace is exactly the single lookup (no transition call),
and the workflow returns the success envelope `{message, issue:{key,url}}`
in every case. -/
theorem update_issue_status_only (env : JiraEnv) (k s : String)
    (hk : k ≠ "") (hs : s ≠ "") :
    (∀ key f, JiraCall.updateIssue key f ∈
        (tryDispatch env "update_issue"
          (some { issueKey := some (JSArg.str k), status := some s })).1 →
        False) ∧
    ((tryDispatch env "update_issue"
        (some { issueKey := some (JSArg.str k), status := some s })).1.filter
          JiraCall.isListTransitions = [JiraCall.listTransitions k]) ∧
    ((∃ t ∈ env.transitionsResp k, jsToLower t.name = jsToLower s) ↔
      ∃ key tid, JiraCall.transitionIssue key tid ∈
        (tryDispatch env "update_issue"
          (some { issueKey := some (JSArg.str k), status := some s })).1) ∧
    ((¬ ∃ t ∈ env.transitionsResp k, jsToLower t.name = jsToLower s) →
      (tryDispatch env "update_issue"
        (some { issueKey := some (JSArg.str k), status := some s })).1
        = [JiraCall.listTransitions k]) ∧
    (tryDispatch env "update_issue"
      (some { issueKey := some (JSArg.str k), status := some s })).2
      = Except.ok (updateSuccessEnvelope env.host k) := by
  have hout : tryDispatch env "update_issue"
      (some { issueKey := some (JSArg.str k), status := some s })
      = ((match (env.transitionsResp k).find?
            (fun t => jsToLower t.name == jsToLower s) with
          | some t => [JiraCall.listTransitions k,
                       JiraCall.transitionIssue k t.id]
          | none => [JiraCall.listTransitions k]),
         Except.ok (updateSuccessEnvelope env.host k)) := by
    simp [tryDispatch, validateUpdateIssueArgs, isNonEmptyStr, updateIssueRun,
      getStr, optTruthy, argTruthy, UpdateFieldsSent.nonempty, hk, hs]
  rw [hout]
  cases hfind : (env.transitionsResp k).find?
      (fun t => jsToLower t.name == jsToLower s) with
  | some t =>
    have htmem : t ∈ env.transitionsResp k := List.mem_of_find?_eq_some hfind
    have htp : jsToLower t.name = jsToLower s := by
      have := List.find?_some hfind
      simpa using this
    refine ⟨?_, ?_, ?_, ?_, rfl⟩
    · intro key f hmem
      simp at hmem
    · simp [JiraCall.isListTransitions, List.filter]
    · constructor
      · intro _
        exact ⟨k, t.id, by simp⟩
      · intro _
        exact ⟨t, htmem, htp⟩
    · intro hno
      exact absurd ⟨t, htmem, htp⟩ hno
  | none =>
    refine ⟨?_, ?_, ?_, fun _ => rfl, rfl⟩
    · intro key f hmem
      simp at hmem
    · simp [JiraCall.isListTransitions, List.filter]
    · constructor
      · rintro ⟨t, htmem, htp⟩
        have hno := List.find?_eq_none.mp hfind t htmem
        simp [htp] at hno
      · rintro ⟨key, tid, hmem⟩
        simp at hmem

/-- Witness for C3 at a concrete environment with no transitions. -/
theorem update_issue_status_only_witness :
    (("CPG-1" : String) ≠ "" ∧ ("Done" : String) ≠ "") ∧
    ((∀ key f, JiraCall.updateIssue key f ∈
        (tryDispatch envEmpty "update_issue"
          (some { issueKey := some (JSArg.str "CPG-1"),
                  status := some "Done" })).1 → False) ∧
     ((tryDispatch envEmpty "update_issue"
        (some { issueKey := some (JSArg.str "CPG-1"),
                status := some "Done" })).1.filter
          JiraCall.isListTransitions = [JiraCall.listTransitions "CPG-1"]) ∧
     ((∃ t ∈ envEmpty.transitionsResp "CPG-1",
          jsToLower t.name = jsToLower "Done") ↔
        ∃ key tid, JiraCall.transitionIssue key tid ∈
          (tryDispatch envEmpty "update_issue"
            (some { issueKey := some (JSArg.str "CPG-1"),
                    status := some "Done" })).1) ∧
     ((¬ ∃ t ∈ envEmpty.transitionsResp "CPG-1",
          jsToLower t.name = jsToLower "Done") →
        (tryDispatch envEmpty "update_issue"
          (some { issueKey := some (JSArg.str "CPG-1"),
                  status := some "Done" })).1
          = [JiraCall.listTransitions "CPG-1"]) ∧
     (tryDispatch envEmpty "update_issue"
        (some { issueKey := some (JSArg.str "CPG-1"),
                status := some "Done" })).2
        = Except.ok (updateSuccessEnvelope envEmpty.host "CPG-1")) :=
  ⟨⟨by decide, by decide⟩,
    update_issue_status_only envEmpty "CPG-1" "Done" (by decide) (by decide)⟩

/-- **C4 counterexample.** At the concrete unknown tool name
`nonexistent_tool`, the caller does not receive a method-not-found
protocol error: the `catch` block turns the thrown `McpError` into the
generic failure envelope
`{content: [{type: "text", text: "Operation failed: <message>"}], isError: true}`,
which is exactly what the claim says is not returned. -/
theorem unknown_tool_counterexample :
    handleCallTool envEmpty "nonexistent_tool" none
      = ([], rawErrorEnvelope
          "Operation failed: MCP error -32601: Unknown tool: nonexistent_tool") := by
  rfl

/-- **C4 (amended).** For every tool-call request whose tool name matches
none of the nine catalog entries, the switch's default case throws a
structured method-not-found `McpError` (code -32601), but the handler's
enclosing catch-all converts it into the generic
`{content:[{type:"text", text:"Operation failed: <message>"}], isError: true}`
envelope, so the caller receives the generic envelope rather than a
protocol-level method-not-found error. -/
theorem unknown_tool_generic_envelope (env : JiraEnv) (name : String)
    (args : Option RawBag) (h : name ∉ catalogNames) :
    tryDispatch env name args
      = ([], Except.error ⟨methodNotFoundCode, "Unknown tool: " ++ name⟩) ∧
    handleCallTool env name args
      = ([], rawErrorEnvelope ("Operation failed: " ++
          McpErr.rendered ⟨methodNotFoundCode, "Unknown tool: " ++ name⟩)) := by
  simp only [catalogNames, List.mem_cons, List.mem_singleton, not_or,
    List.not_mem_nil, or_false] at h
  obtain ⟨h1, h2, h3, h4, h5, h6, h7, h8, h9⟩ := h
  have hd : tryDispatch env name args
      = ([], Except.error ⟨methodNotFoundCode, "Unknown tool: " ++ name⟩) := by
    simp [tryDispatch, h1, h2, h3, h5, h6, h7, h8, h9]
  refine ⟨hd, ?_⟩
  simp [handleCallTool, hd]

/-- Witness for the amended C4. -/
theorem unknown_tool_generic_envelope_witness :
    ("nonexistent_tool" ∉ catalogNames) ∧
    (tryDispatch envEmpty "nonexistent_tool" none
      = ([], Except.error ⟨methodNotFoundCode,
          "Unknown tool: " ++ "nonexistent_tool"⟩) ∧
     handleCallTool envEmpty "nonexistent_tool" none
      = ([], rawErrorEnvelope ("Operation failed: " ++
          McpErr.rendered ⟨methodNotFoundCode,
            "Unknown tool: " ++ "nonexistent_tool"⟩))) :=
  ⟨by decide,
    unknown_tool_generic_envelope envEmpty "nonexistent_tool" none (by decide)⟩

/-- **C5.** For every get_issues call with project key `k`: with a
(non-empty) `jql` argument `j` the search query is exactly
`"project = " ++ k ++ " AND " ++ j`, without one it is exactly
`"project = " ++ k`; in both cases the single search call requests at most
100 results with the fixed field set summary, description, status,
priority, assignee, issuetype, parent, subtasks. -/
theorem get_issues_query (env : JiraEnv) (k : String) (hk : k ≠ "") :
    (tryDispatch env "get_issues" (some { projectKey := some (JSArg.str k) })
      = ([JiraCall.searchJira ("project = " ++ k) 100 getIssuesFieldList],
         Except.ok (jsonEnvelope (env.searchIssuesResp ("project = " ++ k))))) ∧
    (∀ j : String, j ≠ "" →
      tryDispatch env "get_issues"
          (some { projectKey := some (JSArg.str k), jql := some j })
        = ([JiraCall.searchJira ("project = " ++ k ++ " AND " ++ j) 100
              getIssuesFieldList],
           Except.ok (jsonEnvelope
             (env.searchIssuesResp ("project = " ++ k ++ " AND " ++ j))))) := by
  constructor
  · simp [tryDispatch, validateGetIssuesArgs, isNonEmptyStr, getIssuesRun,
      getStr, optTruthy, hk]
  · intro j hj
    simp [tryDispatch, validateGetIssuesArgs, isNonEmptyStr, getIssuesRun,
      getStr, optTruthy, hk, hj]

/-- Witness for C5 at the spec's example `projectKey = "X"`,
`jql = "status = Done"`. -/
theorem get_issues_query_witness :
    (("X" : String) ≠ "") ∧
    ((tryDispatch envEmpty "get_issues"
        (some { projectKey := some (JSArg.str "X") })
      = ([JiraCall.searchJira ("project = " ++ "X") 100 getIssuesFieldList],
         Except.ok (jsonEnvelope
           (envEmpty.searchIssuesResp ("project = " ++ "X"))))) ∧
     (∀ j : String, j ≠ "" →
      tryDispatch envEmpty "get_issues"
          (some { projectKey := some (JSArg.str "X"), jql := some j })
        = ([JiraCall.searchJira ("project = " ++ "X" ++ " AND " ++ j) 100
              getIssuesFieldList],
           Except.ok (jsonEnvelope
             (envEmpty.searchIssuesResp ("project = " ++ "X" ++ " AND " ++ j)))))) :=
  ⟨by decide, get_issues_query envEmpty "X" (by decide)⟩

/-- **C7.** For every get_user call with a valid (non-empty) email: when
the user search returns no matches, the envelope has `isError: true` and
its single text element is exactly `No user found with email: <email>`;
when it returns a match, the envelope has no `isError` field and its text
is a JSON body with exactly the three fields accountId, displayName,
emailAddress of the first match. -/
theorem get_user_envelope (env : JiraEnv) (email : String) (he : email ≠ "") :
    (env.searchUsersResp email = [] →
      tryDispatch env "get_user" (some { email := some (JSArg.str email) })
        = ([JiraCall.searchUsers email true 1],
           Except.ok (rawErrorEnvelope ("No user found with email: " ++ email)))) ∧
    (∀ (u : JUser) (us : List JUser), env.searchUsersResp email = u :: us →
      tryDispatch env "get_user" (some { email := some (JSArg.str email) })
        = ([JiraCall.searchUsers email true 1],
           Except.ok (jsonEnvelope (JVal.obj
             [("accountId", JVal.str u.accountId),
              ("displayName", JVal.str u.displayName),
              ("emailAddress", JVal.str u.emailAddress)])))) := by
  constructor
  · intro h0
    simp [tryDispatch, validateGetUserArgs, isNonEmptyStr, getUserRun, getStr,
      he, h0]
  · intro u us h0
    simp [tryDispatch, validateGetUserArgs, isNonEmptyStr, getUserRun, getStr,
      he, h0]

/-- Witness for C7 (the concrete environment returns no users). -/
theorem get_user_envelope_witness :
    (("alice@example.com" : String) ≠ "") ∧
    ((envEmpty.searchUsersResp "alice@example.com" = [] →
      tryDispatch envEmpty "get_user"
          (some { email := some (JSArg.str "alice@example.com") })
        = ([JiraCall.searchUsers "alice@example.com" true 1],
           Except.ok (rawErrorEnvelope
             ("No user found with email: " ++ "alice@example.com")))) ∧
     (∀ (u : JUser) (us : List JUser),
        envEmpty.searchUsersResp "alice@example.com" = u :: us →
        tryDispatch envEmpty "get_user"
            (some { email := some (JSArg.str "alice@example.com") })
          = ([JiraCall.searchUsers "alice@example.com" true 1],
             Except.ok (jsonEnvelope (JVal.obj
               [("accountId", JVal.str u.accountId),
                ("displayName", JVal.str u.displayName),
                ("emailAddress", JVal.str u.emailAddress)]))))) :=
  ⟨by decide, get_user_envelope envEmpty "alice@example.com" (by decide)⟩

/-! ### C6: validation failures carry the invalid-params code and stop
before any client call -/

theorem validate_code_deleteIssue {args : Option RawBag} {e : McpErr}
    (h : validateDeleteIssueArgs args = Except.error e) :
    e.code = invalidParamsCode := by
  cases args with
  | none =>
    simp only [validateDeleteIssueArgs] at h
    injection h with h
    subst h
    rfl
  | some bag =>
    simp only [validateDeleteIssueArgs] at h
    split_ifs at h
    injection h with h
    subst h
    rfl

theorem validate_code_getIssues {args : Option RawBag} {e : McpErr}
    (h : validateGetIssuesArgs args = Except.error e) :
    e.code = invalidParamsCode := by
  cases args with
  | none =>
    simp only [validateGetIssuesArgs] at h
    injection h with h
    subst h
    rfl
  | some bag =>
    simp only [validateGetIssuesArgs] at h
    split_ifs at h
    injection h with h
    subst h
    rfl

theorem validate_code_updateIssue {args : Option RawBag} {e : McpErr}
    (h : validateUpdateIssueArgs args = Except.error e) :
    e.code = invalidParamsCode := by
  cases args with
  | none =>
    simp only [validateUpdateIssueArgs] at h
    injection h with h
    subst h
    rfl
  | some bag =>
    simp only [validateUpdateIssueArgs] at h
    split_ifs at h
    injection h with h
    subst h
    rfl

theorem validate_code_getUser {args : Option RawBag} {e : McpErr}
    (h : validateGetUserArgs args = Except.error e) :
    e.code = invalidParamsCode := by
  cases args with
  | none =>
    simp only [validateGetUserArgs] at h
    injection h with h
    subst h
    rfl
  | some bag =>
    simp only [validateGetUserArgs] at h
    split_ifs at h
    injection h with h
    subst h
    rfl

theorem validate_code_createIssue {args : Option RawBag} {e : McpErr}
    (h : validateCreateIssueArgs args = Except.error e) :
    e.code = invalidParamsCode := by
  cases args with
  | none =>
    simp only [validateCreateIssueArgs] at h
    injection h with h
    subst h
    rfl
  | some bag =>
    simp only [validateCreateIssueArgs] at h
    split_ifs at h <;>
      · injection h with h
        subst h
        rfl

theorem validate_code_createIssueLink {args : Option RawBag} {e : McpErr}
    (h : validateCreateIssueLinkArgs args = Except.error e) :
    e.code = invalidParamsCode := by
  cases args with
  | none =>
    simp only [validateCreateIssueLinkArgs] at h
    injection h with h
    subst h
    rfl
  | some bag =>
    simp only [validateCreateIssueLinkArgs] at h
    split_ifs at h <;>
      · injection h with h
        subst h
        rfl

/-- Any error produced by a per-tool validator carries the
invalid-parameters error code. -/
theorem validateFor_code {name : String} {args : Option RawBag} {e : McpErr}
    (h : validateFor name args = Except.error e) :
    e.code = invalidParamsCode := by
  unfold validateFor at h
  split_ifs at h
  · exact validate_code_getIssues h
  · exact validate_code_updateIssue h
  · exact validate_code_getUser h
  · exact validate_code_createIssue h
  · exact validate_code_deleteIssue h
  · exact validate_code_createIssueLink h

/-- **C6.** For every tool call whose argument bag fails the tool's
validator (a required field missing, or present but not a non-empty
string), the dispatcher result is exactly the validator's structured
error, whose code is the invalid-parameters code, and the Jira-client
call trace is empty; and for the six argument-taking tools, a missing or
non-object argument bag likewise produces an invalid-parameters error
with no client call. -/
theorem validator_failure_no_calls (env : JiraEnv) (name : String)
    (bag : RawBag) (e : McpErr)
    (h : validateFor name (some bag) = Except.error e) :
    (tryDispatch env name (some bag) = ([], Except.error e) ∧
      e.code = invalidParamsCode) ∧
    (∀ n ∈ ["get_issues", "update_issue", "get_user", "create_issue",
        "delete_issue", "create_issue_link"],
      tryDispatch env n none
        = ([], Except.error ⟨invalidParamsCode, "Arguments are required"⟩)) := by
  refine ⟨⟨?_, validateFor_code h⟩, ?_⟩
  · unfold validateFor at h
    split_ifs at h with h1 h2 h3 h4 h5 h6
    · subst h1; simp [tryDispatch, h]
    · subst h2; simp [tryDispatch, h]
    · subst h3; simp [tryDispatch, h]
    · subst h4; simp [tryDispatch, h]
    · subst h5; simp [tryDispatch, h]
    · subst h6; simp [tryDispatch, h]
  · intro nm hnm
    fin_cases hnm <;> simp [tryDispatch]

/-- Witness for C6: create_issue with an empty bag fails on projectKey. -/
theorem validator_failure_no_calls_witness :
    (validateFor "create_issue" (some {})
      = Except.error ⟨invalidParamsCode,
          "Project key is required and must be a string"⟩) ∧
    ((tryDispatch envEmpty "create_issue" (some {})
        = ([], Except.error ⟨invalidParamsCode,
            "Project key is required and must be a string"⟩) ∧
      McpErr.code ⟨invalidParamsCode,
        "Project key is required and must be a string"⟩ = invalidParamsCode) ∧
     (∀ n ∈ ["get_issues", "update_issue", "get_user", "create_issue",
        "delete_issue", "create_issue_link"],
      tryDispatch envEmpty n none
        = ([], Except.error ⟨invalidParamsCode, "Arguments are required"⟩))) :=
  ⟨rfl,
    validator_failure_no_calls envEmpty "create_issue" {}
      ⟨invalidParamsCode, "Project key is required and must be a string"⟩ rfl⟩

/-- **C8.** For every create_issue call that passes validation: with no
assignee argument the creation request carries the preconfigured default
assignee identifier (`DEFAULT_MANAGER.EMAIL`); with a (non-empty)
assignee argument, that supplied value is carried instead. -/
theorem create_issue_assignee_default (env : JiraEnv) (k s it : String)
    (hk : k ≠ "") (hs : s ≠ "") (hit : it ≠ "")
    (desc pri par : Option String) (lab comps : Option (List String)) :
    (sentAssignees (tryDispatch env "create_issue"
        (some { projectKey := some (JSArg.str k), summary := some (JSArg.str s),
                issueType := some (JSArg.str it), description := desc,
                priority := pri, parent := par, labels := lab,
                components := comps })).1 = [DEFAULT_MANAGER_EMAIL]) ∧
    (∀ a : String, a ≠ "" →
      sentAssignees (tryDispatch env "create_issue"
        (some { projectKey := some (JSArg.str k), summary := some (JSArg.str s),
                issueType := some (JSArg.str it), description := desc,
                assignee := some a, priority := pri, parent := par,
                labels := lab, components := comps })).1 = [a]) := by
  constructor
  · simp [tryDispatch, validateCreateIssueArgs, isNonEmptyStr, createIssueRun,
      getStr, optTruthy, sentAssignees, hk, hs, hit]
  · intro a ha
    simp [tryDispatch, validateCreateIssueArgs, isNonEmptyStr, createIssueRun,
      getStr, optTruthy, sentAssignees, hk, hs, hit, ha]

/-- Witness for C8. -/
theorem create_issue_assignee_default_witness :
    (("CPG" : String) ≠ "" ∧ ("Fix the login page" : String) ≠ "" ∧
      ("Task" : String) ≠ "") ∧
    ((sentAssignees (tryDispatch envEmpty "create_issue"
        (some { projectKey := some (JSArg.str "CPG"),
                summary := some (JSArg.str "Fix the login page"),
                issueType := some (JSArg.str "Task"), description := none,
                priority := none, parent := none, labels := none,
                components := none })).1 = [DEFAULT_MANAGER_EMAIL]) ∧
     (∀ a : String, a ≠ "" →
      sentAssignees (tryDispatch envEmpty "create_issue"
        (some { projectKey := some (JSArg.str "CPG"),
                summary := some (JSArg.str "Fix the login page"),
                issueType := some (JSArg.str "Task"), description := none,
                assignee := some a, priority := none, parent := none,
                labels := none, components := none })).1 = [a])) :=
  ⟨⟨by decide, by decide, by decide⟩,
    create_issue_assignee_default envEmpty "CPG" "Fix the login page" "Task"
      (by decide) (by decide) (by decide) none none none none none⟩

/-- **C9.** For every create_issue argument bag accepted by its validator
(so projectKey is a non-empty string), the project key placed in the
downstream creation request equals the supplied projectKey argument: the
fallback to the preconfigured default project key never fires under that
precondition. -/
theorem create_issue_projectKey_supplied (env : JiraEnv) (bag : RawBag)
    (k : String) (hpk : bag.projectKey = some (JSArg.str k))
    (hok : validateCreateIssueArgs (some bag) = Except.ok ()) :
    sentProjectKeys (tryDispatch env "create_issue" (some bag)).1 = [k] := by
  have hk : k ≠ "" := by
    intro hke
    simp only [validateCreateIssueArgs] at hok
    rw [hpk, hke] at hok
    simp [isNonEmptyStr] at hok
  simp [tryDispatch, hok, createIssueRun, sentProjectKeys, getStr, hpk, hk]

/-- Witness for C9. -/
theorem create_issue_projectKey_supplied_witness :
    (({ projectKey := some (JSArg.str "CPG"),
        summary := some (JSArg.str "A summary"),
        issueType := some (JSArg.str "Task") } : RawBag).projectKey
        = some (JSArg.str "CPG")) ∧
    (validateCreateIssueArgs
        (some { projectKey := some (JSArg.str "CPG"),
                summary := some (JSArg.str "A summary"),
                issueType := some (JSArg.str "Task") }) = Except.ok ()) ∧
    sentProjectKeys (tryDispatch envEmpty "create_issue"
      (some { projectKey := some (JSArg.str "CPG"),
              summary := some (JSArg.str "A summary"),
              issueType := some (JSArg.str "Task") })).1 = ["CPG"] :=
  ⟨rfl, rfl,
    create_issue_projectKey_supplied envEmpty
      { projectKey := some (JSArg.str "CPG"),
        summary := some (JSArg.str "A summary"),
        issueType := some (JSArg.str "Task") } "CPG" rfl rfl⟩

/-- **C10.** For every update_issue call that supplies a (non-empty)
assignee argument, if the user search for that assignee returns no
matches, the assignee slot is silently omitted from the update-fields map
(every field-update call in the trace carries no assignee), no error is
raised, and the workflow still returns the success envelope. -/
theorem update_issue_assignee_no_match (env : JiraEnv) (k a : String)
    (hk : k ≠ "") (ha : a ≠ "") (hempty : env.searchUsersResp a = [])
    (sum : Option JSArg) (desc stat pri : Option String) :
    (∀ key f, JiraCall.updateIssue key f ∈
        (tryDispatch env "update_issue"
          (some { issueKey := some (JSArg.str k), summary := sum,
                  description := desc, assignee := some a, status := stat,
                  priority := pri })).1 → f.assignee = none) ∧
    (tryDispatch env "update_issue"
      (some { issueKey := some (JSArg.str k), summary := sum,
              description := desc, assignee := some a, status := stat,
              priority := pri })).2
      = Except.ok (updateSuccessEnvelope env.host k) := by
  have hout : tryDispatch env "update_issue"
      (some { issueKey := some (JSArg.str k), summary := sum,
              description := desc, assignee := some a, status := stat,
              priority := pri })
      = ((updateIssueRun env
          { issueKey := some (JSArg.str k), summary := sum,
            description := desc, assignee := some a, status := stat,
            priority := pri }).1,
         Except.ok (updateIssueRun env
          { issueKey := some (JSArg.str k), summary := sum,
            description := desc, assignee := some a, status := stat,
            priority := pri }).2) := by
    simp [tryDispatch, validateUpdateIssueArgs, isNonEmptyStr, hk]
  have h1 : (updateIssueRun env
      { issueKey := some (JSArg.str k), summary := sum,
        description := desc, assignee := some a, status := stat,
        priority := pri }).1
      = [JiraCall.searchUsers a true 1]
        ++ (match optTruthy stat with
            | none => ([] : List JiraCall)
            | some s =>
              match (env.transitionsResp k).find?
                  (fun t => jsToLower t.name == jsToLower s) with
              | some t => [JiraCall.listTransitions k,
                           JiraCall.transitionIssue k t.id]
              | none => [JiraCall.listTransitions k])
        ++ (if ({ summary := argTruthy sum,
                  description := (optTruthy desc).map convertToADF,
                  assignee := none,
                  priority := optTruthy pri } : UpdateFieldsSent).nonempty
            then [JiraCall.updateIssue k
              { summary := argTruthy sum,
                description := (optTruthy desc).map convertToADF,
                assignee := none,
                priority := optTruthy pri }]
            else []) := by
    simp [updateIssueRun, getStr, optTruthy, ha, hempty]
  have h2 : (updateIssueRun env
      { issueKey := some (JSArg.str k), summary := sum,
        description := desc, assignee := some a, status := stat,
        priority := pri }).2 = updateSuccessEnvelope env.host k := by
    simp [updateIssueRun, getStr]
  rw [hout]
  refine ⟨?_, by rw [h2]⟩
  intro key f hmem
  rw [h1] at hmem
  rcases List.mem_append.mp hmem with hmem' | hmem'
  · rcases List.mem_append.mp hmem' with hmem'' | hmem''
    · simp at hmem''
    · cases hstat : optTruthy stat with
      | none => simp [hstat] at hmem''
      | some s =>
        cases hfind : (env.transitionsResp k).find?
            (fun t => jsToLower t.name == jsToLower s) with
        | some t => simp [hstat, hfind] at hmem''
        | none => simp [hstat, hfind] at hmem''
  · split at hmem'
    · simp only [List.mem_singleton, JiraCall.updateIssue.injEq] at hmem'
      rw [hmem'.2]
    · simp at hmem'

/-- Witness for C10. -/
theorem update_issue_assignee_no_match_witness :
    (("CPG-1" : String) ≠ "" ∧ ("bob@example.com" : String) ≠ "" ∧
      envEmpty.searchUsersResp "bob@example.com" = []) ∧
    ((∀ key f, JiraCall.updateIssue key f ∈
        (tryDispatch envEmpty "update_issue"
          (some { issueKey := some (JSArg.str "CPG-1"), summary := none,
                  description := none, assignee := some "bob@example.com",
                  status := none, priority := none })).1 →
        f.assignee = none) ∧
     (tryDispatch envEmpty "update_issue"
        (some { issueKey := some (JSArg.str "CPG-1"), summary := none,
                description := none, assignee := some "bob@example.com",
                status := none, priority := none })).2
        = Except.ok (updateSuccessEnvelope envEmpty.host "CPG-1")) :=
  ⟨⟨by decide, by decide, rfl⟩,
    update_issue_assignee_no_match envEmpty "CPG-1" "bob@example.com"
      (by decide) (by decide) rfl none none none none⟩
